import Mathlib

/-!
# Inventory-Management-System-API: validation and business-rule engine

A shallow embedding of the Go packages `models`, `store`, `service` and
`handlers`.

* Go `int` and `int64` values are Lean `Int`s; the arithmetic of
  `IncreaseStock` and `DecreaseStock` wraps modulo `2^64` (`wrapInt`), as Go
  does on a 64-bit platform.
* A `*models.Product` argument is an `Option Product` (`none` is `nil`).
* A Go `(value, error)` result is an `Except Err value`.
* The SQLite table behind `store.Store` is the `DB` state: the rows in rowid
  order, and a trace of the store calls made so far.  Every store method takes
  the state and returns its result with the next state.
* An insert takes one more argument, `rnd`: the outputs of SQLite's random
  number generator during that insert (`rnd 0` is the first draw).  SQLite
  reads them only when the largest rowid is already the largest `int64`.
-/

namespace models

/-- The `Product` struct of `internal/models/models.go`. -/
structure Product where
  ID : Int
  Name : String
  Description : String
  StockQuantity : Int
  LowStockThreshold : Int
deriving DecidableEq

end models

open models

/-- Errors: the nine sentinel errors of `internal/service/service.go`, then
the errors the database layer can hand back: `sql.ErrNoRows`, a failed `CHECK`
constraint, and SQLite running out of rowids. -/
inductive Err where
  | ErrNilProduct
  | ErrInvalidID
  | ErrEmptyName
  | ErrNegativeStock
  | ErrNegativeThreshold
  | ErrZeroOrNegativeAmt
  | ErrInsufficientStock
  | ErrStockOverflow
  | ErrNotFound
  | sqlErrNoRows
  | sqliteConstraint
  | sqliteFull
deriving DecidableEq

/-- Go `math.MaxInt` on a 64-bit platform. -/
def MaxInt : Int := 9223372036854775807

/-- The largest rowid of SQLite, the largest `int64`. -/
def MaxInt64 : Int := 9223372036854775807

/-- Two-complement wraparound of a mathematical integer to a 64-bit Go `int`. -/
def wrapInt (x : Int) : Int := (x + 9223372036854775808) % 18446744073709551616 - 9223372036854775808

/-- Go `unicode.IsSpace`: the code points with the Unicode White_Space property. -/
def IsSpace (c : Char) : Bool :=
  let n := c.toNat
  (9 ≤ n && n ≤ 13) || n == 32 || n == 0x85 || n == 0xA0 || n == 0x1680 ||
    (0x2000 ≤ n && n ≤ 0x200A) || n == 0x2028 || n == 0x2029 || n == 0x202F ||
    n == 0x205F || n == 0x3000

/-- Drop the characters satisfying `f` from both ends of a list. -/
def trimBoth (f : Char → Bool) (l : List Char) : List Char :=
  ((l.dropWhile f).reverse.dropWhile f).reverse

/-- Go `strings.TrimSpace`. -/
def TrimSpace (s : String) : String := String.mk (trimBoth IsSpace s.data)

/-- The one-argument SQL function `trim(X)` of SQLite: it removes spaces
(U+0020 only) from both ends. -/
def sqliteTrim (s : String) : String := String.mk (trimBoth (fun c => c == ' ') s.data)

/-- One call of a `store.Store` method, as recorded in the trace. -/
inductive StoreCall where
  | create (p : Product)
  | get (id : Int)
  | list
  | update (p : Product)
  | delete (id : Int)
deriving DecidableEq

/-- The state behind `store.Store`: the rows of table `products` in rowid
order, and the trace of the store methods called so far. -/
structure DB where
  rows : List Product
  calls : List StoreCall
deriving DecidableEq

/-- The freshly created table, before any call. -/
def emptyDB : DB := { rows := [], calls := [] }

namespace store

/-- The three `CHECK` constraints of the `CREATE TABLE` statement in `NewStore`. -/
def checkRow (p : Product) : Bool :=
  sqliteTrim p.Name != "" && decide (0 ≤ p.StockQuantity) && decide (0 ≤ p.LowStockThreshold)

/-- The candidate rowid SQLite makes of one output `r` of its random number
generator: the low 62 bits of `r`, plus one, so a value from `1` to `2^62`. -/
def randomRowid (r : Int) : Int := r % 4611686018427387904 + 1

/-- Rowid chosen by SQLite for an `INTEGER PRIMARY KEY` column (declared
without `AUTOINCREMENT`) on an insert that gives none: `1` in an empty table,
else one more than the largest rowid in use.  When the largest rowid is the
largest `int64`, SQLite draws up to 100 random candidates and takes the first
one that no row uses; when all 100 are in use the insert fails with
`SQLITE_FULL` (`none`). -/
def nextRowid (rows : List Product) (rnd : Nat → Int) : Option Int :=
  match rows with
  | [] => some 1
  | r :: rs =>
    let m := rs.foldl (fun m x => max m x.ID) r.ID
    if MaxInt64 ≤ m then
      ((List.range 100).map (fun i => randomRowid (rnd i))).find?
        (fun v => !(r :: rs).any (fun x => x.ID == v))
    else some (m + 1)

/-- The table after the insert of row `q`: the rows stay in rowid order. -/
def insertRow (q : Product) : List Product → List Product
  | [] => [q]
  | r :: rs => if q.ID < r.ID then q :: r :: rs else r :: insertRow q rs

/-- `Store.CreateProduct`: `INSERT INTO products (name, description,
stock_quantity, low_stock_threshold) VALUES (?, ?, ?, ?)`, returning
`LastInsertId`.  `rnd` holds the random draws SQLite makes during this insert. -/
def CreateProduct (db : DB) (rnd : Nat → Int) (p : Product) : Except Err Int × DB :=
  let db1 : DB := { db with calls := db.calls ++ [StoreCall.create p] }
  match nextRowid db.rows rnd with
  | none => (Except.error Err.sqliteFull, db1)
  | some id =>
    if checkRow p then
      (Except.ok id, { db1 with rows := insertRow { p with ID := id } db.rows })
    else
      (Except.error Err.sqliteConstraint, db1)

/-- `Store.GetProduct`: `SELECT ... FROM products WHERE id = ?` scanned into a
fresh `Product`; `sql.ErrNoRows` when no row has that id. -/
def GetProduct (db : DB) (id : Int) : Except Err Product × DB :=
  let db1 : DB := { db with calls := db.calls ++ [StoreCall.get id] }
  match db.rows.find? (fun r => r.ID == id) with
  | none => (Except.error Err.sqlErrNoRows, db1)
  | some p => (Except.ok p, db1)

/-- `Store.ListProducts`: `SELECT ... FROM products`, every row in rowid order. -/
def ListProducts (db : DB) : Except Err (List Product) × DB :=
  (Except.ok db.rows, { db with calls := db.calls ++ [StoreCall.list] })

/-- The `SET` clause of the `UPDATE` statement: row `r` gets the name,
description, stock quantity and threshold of `p`, and keeps its id. -/
def setColumns (p r : Product) : Product :=
  { r with Name := p.Name, Description := p.Description,
           StockQuantity := p.StockQuantity,
           LowStockThreshold := p.LowStockThreshold }

/-- `Store.UpdateProduct`: `UPDATE products SET name = ?, description = ?,
stock_quantity = ?, low_stock_threshold = ? WHERE id = ?`; reports whether
exactly one row was affected.  The `CHECK` constraints are evaluated only when
a row matches. -/
def UpdateProduct (db : DB) (p : Product) : Except Err Bool × DB :=
  let db1 : DB := { db with calls := db.calls ++ [StoreCall.update p] }
  let n := (db.rows.filter (fun r => r.ID == p.ID)).length
  if n != 0 && !checkRow p then
    (Except.error Err.sqliteConstraint, db1)
  else
    (Except.ok (n == 1),
      { db1 with rows := db.rows.map (fun r => if r.ID == p.ID then setColumns p r else r) })

/-- `Store.DeleteProduct`: `DELETE FROM products WHERE id = ?`; reports whether
exactly one row was deleted. -/
def DeleteProduct (db : DB) (id : Int) : Except Err Bool × DB :=
  let n := (db.rows.filter (fun r => r.ID == id)).length
  (Except.ok (n == 1),
    { rows := db.rows.filter (fun r => !(r.ID == id)),
      calls := db.calls ++ [StoreCall.delete id] })

end store

namespace service

/-- `mapNotFound`: the store-layer `sql.ErrNoRows` becomes `ErrNotFound`. -/
def mapNotFound (err : Err) : Err :=
  if err = Err.sqlErrNoRows then Err.ErrNotFound else err

/-- `validateCommonProductFields`; `none` is the `nil` error. -/
def validateCommonProductFields (p : Product) : Option Err :=
  if TrimSpace p.Name == "" then some Err.ErrEmptyName
  else if p.StockQuantity < 0 then some Err.ErrNegativeStock
  else if p.LowStockThreshold < 0 then some Err.ErrNegativeThreshold
  else none

/-- `validateProductForCreate`. -/
def validateProductForCreate (p : Option Product) : Option Err :=
  match p with
  | none => some Err.ErrNilProduct
  | some q => validateCommonProductFields q

/-- `Service.CreateProduct`.  The second case cannot occur:
`validateProductForCreate` refuses a `nil` candidate. -/
def CreateProduct (db : DB) (rnd : Nat → Int) (p : Option Product) : Except Err Int × DB :=
  match validateProductForCreate p, p with
  | some err, _ => (Except.error err, db)
  | none, none => (Except.error Err.ErrNilProduct, db)
  | none, some q => store.CreateProduct db rnd q

/-- `Service.GetProduct`. -/
def GetProduct (db : DB) (id : Int) : Except Err Product × DB :=
  if id ≤ 0 then (Except.error Err.ErrInvalidID, db)
  else
    match store.GetProduct db id with
    | (Except.error err, db1) => (Except.error (mapNotFound err), db1)
    | (Except.ok p, db1) => (Except.ok p, db1)

/-- `Service.ListProducts`. -/
def ListProducts (db : DB) : Except Err (List Product) × DB :=
  store.ListProducts db

/-- `Service.UpdateProduct`; `Except.ok ()` is the `nil` error. -/
def UpdateProduct (db : DB) (p : Option Product) : Except Err Unit × DB :=
  match p with
  | none => (Except.error Err.ErrNilProduct, db)
  | some q =>
    if q.ID ≤ 0 then (Except.error Err.ErrInvalidID, db)
    else
      match validateCommonProductFields q with
      | some err => (Except.error err, db)
      | none =>
        match store.UpdateProduct db q with
        | (Except.error err, db1) => (Except.error err, db1)
        | (Except.ok ok, db1) =>
          if !ok then (Except.error Err.ErrNotFound, db1) else (Except.ok (), db1)

/-- `Service.DeleteProduct`. -/
def DeleteProduct (db : DB) (id : Int) : Except Err Unit × DB :=
  if id ≤ 0 then (Except.error Err.ErrInvalidID, db)
  else
    match store.DeleteProduct db id with
    | (Except.error err, db1) => (Except.error err, db1)
    | (Except.ok ok, db1) =>
      if !ok then (Except.error Err.ErrNotFound, db1) else (Except.ok (), db1)

/-- `Service.IncreaseStock`. -/
def IncreaseStock (db : DB) (id : Int) (amount : Int) : Except Err Product × DB :=
  if id ≤ 0 then (Except.error Err.ErrInvalidID, db)
  else if amount ≤ 0 then (Except.error Err.ErrZeroOrNegativeAmt, db)
  else
    match store.GetProduct db id with
    | (Except.error err, db1) => (Except.error (mapNotFound err), db1)
    | (Except.ok p, db1) =>
      if 0 < amount ∧ wrapInt (MaxInt - amount) < p.StockQuantity then
        (Except.error Err.ErrStockOverflow, db1)
      else
        let p1 : Product := { p with StockQuantity := wrapInt (p.StockQuantity + amount) }
        match store.UpdateProduct db1 p1 with
        | (Except.error err, db2) => (Except.error err, db2)
        | (Except.ok _, db2) => (Except.ok p1, db2)

/-- `Service.DecreaseStock`. -/
def DecreaseStock (db : DB) (id : Int) (amount : Int) : Except Err Product × DB :=
  if id ≤ 0 then (Except.error Err.ErrInvalidID, db)
  else if amount ≤ 0 then (Except.error Err.ErrZeroOrNegativeAmt, db)
  else
    match store.GetProduct db id with
    | (Except.error err, db1) => (Except.error (mapNotFound err), db1)
    | (Except.ok p, db1) =>
      if p.StockQuantity < amount then
        (Except.error Err.ErrInsufficientStock, db1)
      else
        let p1 : Product := { p with StockQuantity := wrapInt (p.StockQuantity - amount) }
        match store.UpdateProduct db1 p1 with
        | (Except.error err, db2) => (Except.error err, db2)
        | (Except.ok _, db2) => (Except.ok p1, db2)

/-- The loop body of `ListLowStockProducts`: append `p` when it is low on stock. -/
def lowStep (low : List Product) (p : Product) : List Product :=
  if 0 < p.LowStockThreshold ∧ p.StockQuantity < p.LowStockThreshold then low ++ [p] else low

/-- `Service.ListLowStockProducts`. -/
def ListLowStockProducts (db : DB) : Except Err (List Product) × DB :=
  match store.ListProducts db with
  | (Except.error err, db1) => (Except.error err, db1)
  | (Except.ok products, db1) => (Except.ok (products.foldl lowStep []), db1)

end service

namespace handlers

/-- The JSON value written by a handler: an `apiError` whose message is one of
the handler's constants (`apiError`) or the `Error()` text of an engine error
(`apiErrorOf`), a product, a list of products, or the `message` map. -/
inductive Payload where
  | apiError (msg : String)
  | apiErrorOf (err : Err)
  | product (p : Product)
  | products (l : List Product)
  | message (msg : String)
deriving DecidableEq

/-- What `respondJSON` writes: the status code and the payload. -/
structure Response where
  code : Nat
  payload : Payload
deriving DecidableEq

def errInvalidBody : String := "invalid request body"
def errInvalidID : String := "invalid product ID"
def errInvalidAmount : String := "invalid amount"
def errNotFound : String := "product not found"

def StatusOK : Nat := 200
def StatusCreated : Nat := 201
def StatusBadRequest : Nat := 400
def StatusNotFound : Nat := 404
def StatusInternalServerError : Nat := 500

/-- `respondJSON`. -/
def respondJSON (code : Nat) (payload : Payload) : Response := { code := code, payload := payload }

/-- `respondError` with a constant message. -/
def respondError (code : Nat) (msg : String) : Response := respondJSON code (Payload.apiError msg)

/-- `respondError` with `err.Error()` as the message. -/
def respondErrorOf (code : Nat) (err : Err) : Response := respondJSON code (Payload.apiErrorOf err)

/-- `ProductHandler.CreateProduct`; `body` is the result of decoding the
request body (`none` when `Decode` fails). -/
def CreateProduct (db : DB) (rnd : Nat → Int) (body : Option Product) : Response × DB :=
  match body with
  | none => (respondError StatusBadRequest errInvalidBody, db)
  | some p =>
    match service.CreateProduct db rnd (some p) with
    | (Except.error err, db1) => (respondErrorOf StatusBadRequest err, db1)
    | (Except.ok id, db1) => (respondJSON StatusCreated (Payload.product { p with ID := id }), db1)

/-- `ProductHandler.GetProduct`; `idParam` is the result of `parseID` (`none`
when it fails). -/
def GetProduct (db : DB) (idParam : Option Int) : Response × DB :=
  match idParam with
  | none => (respondError StatusBadRequest errInvalidID, db)
  | some id =>
    if id ≤ 0 then (respondError StatusBadRequest errInvalidID, db)
    else
      match service.GetProduct db id with
      | (Except.error _, db1) => (respondError StatusNotFound errNotFound, db1)
      | (Except.ok p, db1) => (respondJSON StatusOK (Payload.product p), db1)

/-- `ProductHandler.ListProducts`. -/
def ListProducts (db : DB) : Response × DB :=
  match service.ListProducts db with
  | (Except.error _, db1) => (respondError StatusInternalServerError "failed to list products", db1)
  | (Except.ok products, db1) => (respondJSON StatusOK (Payload.products products), db1)

/-- `ProductHandler.UpdateProduct`. -/
def UpdateProduct (db : DB) (idParam : Option Int) (body : Option Product) : Response × DB :=
  match idParam with
  | none => (respondError StatusBadRequest errInvalidID, db)
  | some id =>
    if id ≤ 0 then (respondError StatusBadRequest errInvalidID, db)
    else
      match body with
      | none => (respondError StatusBadRequest errInvalidBody, db)
      | some p0 =>
        let p : Product := { p0 with ID := id }
        match service.UpdateProduct db (some p) with
        | (Except.error err, db1) => (respondErrorOf StatusBadRequest err, db1)
        | (Except.ok _, db1) => (respondJSON StatusOK (Payload.product p), db1)

/-- `ProductHandler.DeleteProduct`. -/
def DeleteProduct (db : DB) (idParam : Option Int) : Response × DB :=
  match idParam with
  | none => (respondError StatusBadRequest errInvalidID, db)
  | some id =>
    if id ≤ 0 then (respondError StatusBadRequest errInvalidID, db)
    else
      match service.DeleteProduct db id with
      | (Except.error err, db1) => (respondErrorOf StatusBadRequest err, db1)
      | (Except.ok _, db1) => (respondJSON StatusOK (Payload.message "product deleted"), db1)

/-- `ProductHandler.IncreaseStock`; `body` is the decoded `amount` (`none`
when `Decode` fails). -/
def IncreaseStock (db : DB) (idParam : Option Int) (body : Option Int) : Response × DB :=
  match idParam with
  | none => (respondError StatusBadRequest errInvalidID, db)
  | some id =>
    if id ≤ 0 then (respondError StatusBadRequest errInvalidID, db)
    else
      match body with
      | none => (respondError StatusBadRequest errInvalidAmount, db)
      | some amount =>
        if amount ≤ 0 then (respondError StatusBadRequest errInvalidAmount, db)
        else
          match service.IncreaseStock db id amount with
          | (Except.error err, db1) => (respondErrorOf StatusBadRequest err, db1)
          | (Except.ok p, db1) => (respondJSON StatusOK (Payload.product p), db1)

/-- `ProductHandler.DecreaseStock`. -/
def DecreaseStock (db : DB) (idParam : Option Int) (body : Option Int) : Response × DB :=
  match idParam with
  | none => (respondError StatusBadRequest errInvalidID, db)
  | some id =>
    if id ≤ 0 then (respondError StatusBadRequest errInvalidID, db)
    else
      match body with
      | none => (respondError StatusBadRequest errInvalidAmount, db)
      | some amount =>
        if amount ≤ 0 then (respondError StatusBadRequest errInvalidAmount, db)
        else
          match service.DecreaseStock db id amount with
          | (Except.error err, db1) => (respondErrorOf StatusBadRequest err, db1)
          | (Except.ok p, db1) => (respondJSON StatusOK (Payload.product p), db1)

/-- `ProductHandler.ListLowStockProducts`. -/
def ListLowStockProducts (db : DB) : Response × DB :=
  match service.ListLowStockProducts db with
  | (Except.error _, db1) =>
    (respondError StatusInternalServerError "failed to list low stock products", db1)
  | (Except.ok products, db1) => (respondJSON StatusOK (Payload.products products), db1)

end handlers

/-! ## Specification vocabulary -/

deriving instance DecidableEq for Except

/-- The product invariants 1 to 4 of the data model. -/
def ProductOK (p : Product) : Prop :=
  0 < p.ID ∧ TrimSpace p.Name ≠ "" ∧ 0 ≤ p.StockQuantity ∧ 0 ≤ p.LowStockThreshold

instance (p : Product) : Decidable (ProductOK p) :=
  inferInstanceAs (Decidable
    (0 < p.ID ∧ TrimSpace p.Name ≠ "" ∧ 0 ≤ p.StockQuantity ∧ 0 ≤ p.LowStockThreshold))

/-- Every stored product satisfies the product invariants. -/
def Invariant (db : DB) : Prop := ∀ p ∈ db.rows, ProductOK p

instance (db : DB) : Decidable (Invariant db) :=
  inferInstanceAs (Decidable (∀ p ∈ db.rows, ProductOK p))

/-- The low-stock predicate, invariant 5 of the data model. -/
def isLowStock (p : Product) : Bool :=
  decide (0 < p.LowStockThreshold ∧ p.StockQuantity < p.LowStockThreshold)

/-- One engine operation with its arguments; a create also carries the random
draws SQLite makes during its insert. -/
inductive Op where
  | create (rnd : Nat → Int) (p : Option Product)
  | get (id : Int)
  | list
  | update (p : Option Product)
  | delete (id : Int)
  | increase (id amount : Int)
  | decrease (id amount : Int)
  | listLow

/-- The store after one engine operation, whether it succeeded or failed. -/
def step (db : DB) : Op → DB
  | Op.create rnd p => (service.CreateProduct db rnd p).2
  | Op.get id => (service.GetProduct db id).2
  | Op.list => (service.ListProducts db).2
  | Op.update p => (service.UpdateProduct db p).2
  | Op.delete id => (service.DeleteProduct db id).2
  | Op.increase id amount => (service.IncreaseStock db id amount).2
  | Op.decrease id amount => (service.DecreaseStock db id amount).2
  | Op.listLow => (service.ListLowStockProducts db).2

/-- The store after a sequence of engine operations. -/
def run (db : DB) (ops : List Op) : DB := ops.foldl step db

/-! ## Concrete stores used in the examples -/

/-- A random number generator whose every output is 0: every candidate rowid
is 1. -/
def zeroDraws : Nat → Int := fun _ => 0

/-- A random number generator whose first output is 0 and whose later outputs
are 41: the candidate rowids are 1, then 42. -/
def laterDraws : Nat → Int := fun i => if i = 0 then 0 else 41

/-- The candidate of `TestIncreaseStock` and `TestDecreaseStock`: stock 5,
threshold 2. -/
def stockProduct : Product :=
  { ID := 0, Name := "StockProduct", Description := "", StockQuantity := 5,
    LowStockThreshold := 2 }

/-- The store after creating `stockProduct` in the empty table; it gets id 1. -/
def stockDB : DB := (service.CreateProduct emptyDB zeroDraws (some stockProduct)).2

/-- A table whose rowids are used up to the largest `int64`: rows 1 and
`MaxInt64`. -/
def toppedDB : DB :=
  { rows := [{ stockProduct with ID := 1 }, { stockProduct with ID := MaxInt64 }],
    calls := [] }

/-- A valid candidate whose stock is already `MaxInt`. -/
def fullProduct : Product :=
  { ID := 0, Name := "Full", Description := "", StockQuantity := MaxInt,
    LowStockThreshold := 0 }

/-- The store after creating `fullProduct` in the empty table; it gets id 1. -/
def fullDB : DB := (service.CreateProduct emptyDB zeroDraws (some fullProduct)).2

/-- Candidate P1 of `TestListLowStockProducts`: stock 1, threshold 2. -/
def lowP1 : Product :=
  { ID := 0, Name := "P1", Description := "", StockQuantity := 1, LowStockThreshold := 2 }

/-- Candidate P2 of `TestListLowStockProducts`: stock 3, threshold 2. -/
def lowP2 : Product :=
  { ID := 0, Name := "P2", Description := "", StockQuantity := 3, LowStockThreshold := 2 }

/-- The store after creating P1 and then P2 in the empty table. -/
def lowDB : DB :=
  (service.CreateProduct (service.CreateProduct emptyDB zeroDraws (some lowP1)).2 zeroDraws
    (some lowP2)).2

/-- A candidate with id 0 whose name is only white space. -/
def blankProduct : Product :=
  { ID := 0, Name := " \t ", Description := "", StockQuantity := 1, LowStockThreshold := 0 }

/-- A candidate with a negative stock and an empty name. -/
def negativeNameless : Product :=
  { ID := 7, Name := "", Description := "", StockQuantity := -5, LowStockThreshold := 0 }

/-- The rejected candidate of `TestCreateProduct`: name "Bad Product", stock -5. -/
def badProduct : Product :=
  { ID := 0, Name := "Bad Product", Description := "", StockQuantity := -5,
    LowStockThreshold := 0 }

/-! ## Helper lemmas -/

theorem all_of_trimBoth_eq_nil (f : Char → Bool) (l : List Char) (h : trimBoth f l = []) :
    ∀ c ∈ l, f c = true := by
  induction l with
  | nil => intro c hc; cases hc
  | cons a t ih =>
    unfold trimBoth at h
    by_cases ha : f a = true
    · rw [List.dropWhile_cons_of_pos ha] at h
      intro c hc
      rcases List.mem_cons.mp hc with rfl | hc
      · exact ha
      · exact ih h c hc
    · rw [List.dropWhile_cons_of_neg ha] at h
      rw [List.reverse_eq_nil_iff, List.dropWhile_eq_nil_iff] at h
      exact absurd (h a (by simp)) ha

theorem trimBoth_eq_nil_of_all (f : Char → Bool) (l : List Char) (h : ∀ c ∈ l, f c = true) :
    trimBoth f l = [] := by
  unfold trimBoth
  have h1 : l.dropWhile f = [] := List.dropWhile_eq_nil_iff.mpr h
  rw [h1]
  rfl

theorem string_mk_eq_empty (l : List Char) : String.mk l = "" ↔ l = [] := by
  constructor
  · intro h
    have := congrArg String.data h
    simpa using this
  · rintro rfl
    rfl

theorem isSpace_of_blank (c : Char) (h : (c == ' ') = true) : IsSpace c = true := by
  have hc : c = ' ' := by simpa using h
  subst hc
  decide

theorem sqliteTrim_ne_of_TrimSpace_ne (s : String) (h : TrimSpace s ≠ "") : sqliteTrim s ≠ "" := by
  intro hs
  apply h
  unfold TrimSpace
  unfold sqliteTrim at hs
  rw [string_mk_eq_empty] at hs ⊢
  apply trimBoth_eq_nil_of_all
  intro c hc
  exact isSpace_of_blank c (all_of_trimBoth_eq_nil _ _ hs c hc)

theorem foldl_max_ge (rs : List Product) (m : Int) :
    m ≤ rs.foldl (fun m x => max m x.ID) m ∧
      ∀ r ∈ rs, r.ID ≤ rs.foldl (fun m x => max m x.ID) m := by
  induction rs generalizing m with
  | nil => exact ⟨le_refl _, fun r hr => by cases hr⟩
  | cons a t ih =>
    obtain ⟨h1, h2⟩ := ih (max m a.ID)
    refine ⟨le_trans (le_max_left _ _) h1, ?_⟩
    intro r hr
    rcases List.mem_cons.mp hr with rfl | hr
    · exact le_trans (le_max_right _ _) h1
    · exact h2 r hr

theorem randomRowid_pos (r : Int) : 0 < store.randomRowid r := by
  unfold store.randomRowid
  omega

theorem nextRowid_unused (rows : List Product) (rnd : Nat → Int) (id : Int)
    (h : store.nextRowid rows rnd = some id) : ∀ r ∈ rows, r.ID ≠ id := by
  cases rows with
  | nil => intro r hr; cases hr
  | cons a t =>
    simp only [store.nextRowid] at h
    split at h
    · have hfree := List.find?_some h
      simp only [Bool.not_eq_true', List.any_eq_false, beq_iff_eq] at hfree
      intro r hr
      exact hfree r hr
    · obtain ⟨h1, h2⟩ := foldl_max_ge t a.ID
      have hid : id = t.foldl (fun m x => max m x.ID) a.ID + 1 := by
        simpa using h.symm
      intro r hr
      rcases List.mem_cons.mp hr with rfl | hr
      · omega
      · have := h2 r hr
        omega

theorem nextRowid_pos (rows : List Product) (rnd : Nat → Int) (id : Int)
    (hpos : ∀ r ∈ rows, 0 < r.ID) (h : store.nextRowid rows rnd = some id) : 0 < id := by
  cases rows with
  | nil =>
    simp only [store.nextRowid] at h
    have : id = 1 := by simpa using h.symm
    omega
  | cons a t =>
    simp only [store.nextRowid] at h
    split at h
    · have hmem := List.mem_of_find?_eq_some h
      simp only [List.mem_map, List.mem_range] at hmem
      obtain ⟨i, -, rfl⟩ := hmem
      exact randomRowid_pos _
    · obtain ⟨h1, -⟩ := foldl_max_ge t a.ID
      have hid : id = t.foldl (fun m x => max m x.ID) a.ID + 1 := by
        simpa using h.symm
      have h2 := hpos a (by simp)
      omega

theorem nextRowid_succ (rows : List Product) (rnd : Nat → Int) (m : Int)
    (hm : ∀ r ∈ rows, r.ID ≤ m) (hlt : m < MaxInt64) : ∃ id, store.nextRowid rows rnd = some id := by
  cases rows with
  | nil => exact ⟨1, rfl⟩
  | cons a t =>
    have hle : ∀ (l : List Product) (b : Int), b ≤ m → (∀ r ∈ l, r.ID ≤ m) →
        l.foldl (fun m x => max m x.ID) b ≤ m := by
      intro l
      induction l with
      | nil => intro b hb _; exact hb
      | cons x xs ih =>
        intro b hb hl
        exact ih (max b x.ID) (max_le hb (hl x (by simp)))
          (fun r hr => hl r (List.mem_cons_of_mem x hr))
    have hmax := hle t a.ID (hm a (by simp)) (fun r hr => hm r (List.mem_cons_of_mem a hr))
    refine ⟨t.foldl (fun m x => max m x.ID) a.ID + 1, ?_⟩
    simp only [store.nextRowid]
    rw [if_neg (by omega)]

theorem mem_insertRow (q x : Product) (rows : List Product) :
    x ∈ store.insertRow q rows ↔ x = q ∨ x ∈ rows := by
  induction rows with
  | nil => simp [store.insertRow]
  | cons a t ih =>
    unfold store.insertRow
    split
    · simp
    · simp only [List.mem_cons, ih]
      tauto

theorem find_insertRow (rows : List Product) (q : Product)
    (hfresh : ∀ r ∈ rows, r.ID ≠ q.ID) :
    (store.insertRow q rows).find? (fun r => r.ID == q.ID) = some q := by
  induction rows with
  | nil => simp [store.insertRow]
  | cons a t ih =>
    have hne : (a.ID == q.ID) = false := by
      simp only [beq_eq_false_iff_ne, ne_eq]
      exact hfresh a (by simp)
    unfold store.insertRow
    split
    · simp
    · rw [List.find?_cons, hne]
      exact ih (fun r hr => hfresh r (List.mem_cons_of_mem a hr))

theorem insertRow_last (rows : List Product) (q : Product) (h : ∀ r ∈ rows, r.ID < q.ID) :
    store.insertRow q rows = rows ++ [q] := by
  induction rows with
  | nil => rfl
  | cons a t ih =>
    have ha := h a (by simp)
    unfold store.insertRow
    rw [if_neg (by omega), ih (fun r hr => h r (List.mem_cons_of_mem a hr))]
    rfl

theorem validate_none (q : Product) (h : service.validateCommonProductFields q = none) :
    TrimSpace q.Name ≠ "" ∧ 0 ≤ q.StockQuantity ∧ 0 ≤ q.LowStockThreshold := by
  unfold service.validateCommonProductFields at h
  split at h
  · cases h
  · split at h
    · cases h
    · split at h
      · cases h
      · rename_i h1 h2 h3
        refine ⟨?_, by omega, by omega⟩
        simpa using h1

theorem checkRow_of_valid (q : Product) (h1 : TrimSpace q.Name ≠ "") (h2 : 0 ≤ q.StockQuantity)
    (h3 : 0 ≤ q.LowStockThreshold) : store.checkRow q = true := by
  have := sqliteTrim_ne_of_TrimSpace_ne q.Name h1
  simp [store.checkRow, this, h2, h3]

theorem store_GetProduct_rows (db : DB) (id : Int) : (store.GetProduct db id).2.rows = db.rows := by
  unfold store.GetProduct
  split <;> rfl

theorem store_GetProduct_calls (db : DB) (id : Int) :
    (store.GetProduct db id).2.calls = db.calls ++ [StoreCall.get id] := by
  unfold store.GetProduct
  split <;> rfl

theorem store_GetProduct_ok (db : DB) (id : Int) (p : Product)
    (h : (store.GetProduct db id).1 = Except.ok p) :
    db.rows.find? (fun r => r.ID == id) = some p := by
  unfold store.GetProduct at h
  split at h
  · cases h
  · rename_i q hq
    simp only [Except.ok.injEq] at h
    rw [hq, h]

theorem store_GetProduct_of_find (db : DB) (id : Int) (p : Product)
    (h : db.rows.find? (fun r => r.ID == id) = some p) :
    store.GetProduct db id = (Except.ok p, { db with calls := db.calls ++ [StoreCall.get id] }) := by
  unfold store.GetProduct
  simp only [h]

theorem find_mem_id (rows : List Product) (id : Int) (p : Product)
    (h : rows.find? (fun r => r.ID == id) = some p) : p ∈ rows ∧ p.ID = id := by
  refine ⟨List.mem_of_find?_eq_some h, ?_⟩
  have := List.find?_some h
  simpa using this

theorem store_CreateProduct_inv (db : DB) (rnd : Nat → Int) (p : Product) (hinv : Invariant db)
    (h1 : TrimSpace p.Name ≠ "") (h2 : 0 ≤ p.StockQuantity) (h3 : 0 ≤ p.LowStockThreshold) :
    Invariant (store.CreateProduct db rnd p).2 := by
  unfold store.CreateProduct
  split
  · exact hinv
  · rename_i id hid
    split
    · intro r hr
      rcases (mem_insertRow _ r db.rows).mp hr with rfl | hr
      · exact ⟨nextRowid_pos db.rows rnd id (fun r hr => (hinv r hr).1) hid, h1, h2, h3⟩
      · exact hinv r hr
    · exact hinv

theorem store_UpdateProduct_inv (db : DB) (p : Product) (hinv : Invariant db)
    (h1 : TrimSpace p.Name ≠ "") : Invariant (store.UpdateProduct db p).2 := by
  dsimp only [store.UpdateProduct]
  split
  · exact hinv
  · rename_i hc
    intro r hr
    simp only [List.mem_map] at hr
    obtain ⟨r0, hr0, rfl⟩ := hr
    split
    · rename_i hid
      have hn : (db.rows.filter (fun r => r.ID == p.ID)).length ≠ 0 := by
        intro h0
        have hnil := List.length_eq_zero.mp h0
        have : r0 ∈ db.rows.filter (fun r => r.ID == p.ID) := List.mem_filter.mpr ⟨hr0, hid⟩
        rw [hnil] at this
        cases this
      have hck : store.checkRow p = true := by
        by_contra hck
        apply hc
        simp [hn, hck]
      simp only [store.checkRow, Bool.and_eq_true, decide_eq_true_eq] at hck
      exact ⟨(hinv r0 hr0).1, h1, hck.1.2, hck.2⟩
    · exact hinv r0 hr0

theorem store_DeleteProduct_inv (db : DB) (id : Int) (hinv : Invariant db) :
    Invariant (store.DeleteProduct db id).2 := by
  intro r hr
  exact hinv r (List.mem_of_mem_filter hr)

theorem service_CreateProduct_inv (db : DB) (rnd : Nat → Int) (p : Option Product)
    (hinv : Invariant db) : Invariant (service.CreateProduct db rnd p).2 := by
  unfold service.CreateProduct
  split
  · exact hinv
  · exact hinv
  · rename_i q hv
    obtain ⟨h1, h2, h3⟩ := validate_none q hv
    exact store_CreateProduct_inv db rnd q hinv h1 h2 h3

theorem service_UpdateProduct_inv (db : DB) (p : Option Product) (hinv : Invariant db) :
    Invariant (service.UpdateProduct db p).2 := by
  unfold service.UpdateProduct
  split
  · exact hinv
  · rename_i q
    split
    · exact hinv
    · split
      · exact hinv
      · rename_i hv
        have hu := store_UpdateProduct_inv db q hinv (validate_none q hv).1
        split
        · rename_i e db1 heq
          rw [heq] at hu
          exact hu
        · rename_i ok db1 heq
          rw [heq] at hu
          split <;> exact hu

theorem service_DeleteProduct_inv (db : DB) (id : Int) (hinv : Invariant db) :
    Invariant (service.DeleteProduct db id).2 := by
  unfold service.DeleteProduct
  split
  · exact hinv
  · have hu := store_DeleteProduct_inv db id hinv
    split
    · rename_i e db1 heq
      rw [heq] at hu
      exact hu
    · rename_i ok db1 heq
      rw [heq] at hu
      split <;> exact hu

theorem Invariant_of_rows (db db1 : DB) (h : db1.rows = db.rows) (hinv : Invariant db) :
    Invariant db1 := by
  intro r hr
  rw [h] at hr
  exact hinv r hr

theorem store_GetProduct_split (db : DB) (id : Int) (res : Except Err Product) (db1 : DB)
    (h : store.GetProduct db id = (res, db1)) :
    db1.rows = db.rows ∧ db1.calls = db.calls ++ [StoreCall.get id] ∧
      ∀ p, res = Except.ok p → db.rows.find? (fun r => r.ID == id) = some p := by
  have h1 := store_GetProduct_rows db id
  have h2 := store_GetProduct_calls db id
  have h3 := store_GetProduct_ok db id
  rw [h] at h1 h2 h3
  exact ⟨h1, h2, fun p hp => h3 p hp⟩

theorem service_IncreaseStock_inv (db : DB) (id amount : Int) (hinv : Invariant db) :
    Invariant (service.IncreaseStock db id amount).2 := by
  unfold service.IncreaseStock
  split
  · exact hinv
  · split
    · exact hinv
    · split
      · rename_i e db1 heq
        exact Invariant_of_rows db db1 (store_GetProduct_split db id _ db1 heq).1 hinv
      · rename_i p db1 heq
        obtain ⟨hrows, -, hfind⟩ := store_GetProduct_split db id _ db1 heq
        have hinv1 := Invariant_of_rows db db1 hrows hinv
        split
        · exact hinv1
        · have hp := hinv p (find_mem_id db.rows id p (hfind p rfl)).1
          have hu := store_UpdateProduct_inv db1
            { p with StockQuantity := wrapInt (p.StockQuantity + amount) } hinv1 hp.2.1
          dsimp only
          split
          · rename_i e db2 heq2
            rw [heq2] at hu
            exact hu
          · rename_i ok db2 heq2
            rw [heq2] at hu
            exact hu

theorem service_DecreaseStock_inv (db : DB) (id amount : Int) (hinv : Invariant db) :
    Invariant (service.DecreaseStock db id amount).2 := by
  unfold service.DecreaseStock
  split
  · exact hinv
  · split
    · exact hinv
    · split
      · rename_i e db1 heq
        exact Invariant_of_rows db db1 (store_GetProduct_split db id _ db1 heq).1 hinv
      · rename_i p db1 heq
        obtain ⟨hrows, -, hfind⟩ := store_GetProduct_split db id _ db1 heq
        have hinv1 := Invariant_of_rows db db1 hrows hinv
        split
        · exact hinv1
        · have hp := hinv p (find_mem_id db.rows id p (hfind p rfl)).1
          have hu := store_UpdateProduct_inv db1
            { p with StockQuantity := wrapInt (p.StockQuantity - amount) } hinv1 hp.2.1
          dsimp only
          split
          · rename_i e db2 heq2
            rw [heq2] at hu
            exact hu
          · rename_i ok db2 heq2
            rw [heq2] at hu
            exact hu

theorem service_GetProduct_rows (db : DB) (id : Int) :
    (service.GetProduct db id).2.rows = db.rows := by
  unfold service.GetProduct
  split
  · rfl
  · split
    · rename_i e db1 heq
      exact (store_GetProduct_split db id _ db1 heq).1
    · rename_i p db1 heq
      exact (store_GetProduct_split db id _ db1 heq).1

theorem step_inv (db : DB) (op : Op) (hinv : Invariant db) : Invariant (step db op) := by
  cases op with
  | create rnd p => exact service_CreateProduct_inv db rnd p hinv
  | get id => exact Invariant_of_rows db _ (service_GetProduct_rows db id) hinv
  | list => exact hinv
  | update p => exact service_UpdateProduct_inv db p hinv
  | delete id => exact service_DeleteProduct_inv db id hinv
  | increase id amount => exact service_IncreaseStock_inv db id amount hinv
  | decrease id amount => exact service_DecreaseStock_inv db id amount hinv
  | listLow => exact hinv

theorem run_inv (ops : List Op) (db : DB) (hinv : Invariant db) : Invariant (run db ops) := by
  induction ops generalizing db with
  | nil => exact hinv
  | cons op rest ih => exact ih (step db op) (step_inv db op hinv)

theorem wrapInt_of_range (x : Int) (h1 : -9223372036854775808 ≤ x) (h2 : x ≤ 9223372036854775807) :
    wrapInt x = x := by
  unfold wrapInt
  omega

theorem find_update (rows : List Product) (q : Product) (id : Int) :
    (rows.map (fun r => if r.ID == q.ID then store.setColumns q r else r)).find?
        (fun r => r.ID == id) =
      (rows.find? (fun r => r.ID == id)).map
        (fun r => if r.ID == q.ID then store.setColumns q r else r) := by
  induction rows with
  | nil => rfl
  | cons a t ih =>
    have hid : (if a.ID == q.ID then store.setColumns q a else a).ID = a.ID := by
      split <;> rfl
    simp only [List.map_cons, List.find?_cons, hid]
    split
    · rfl
    · exact ih

theorem setColumns_self (q p : Product) (h : p.ID = q.ID) : store.setColumns q p = q := by
  cases p
  cases q
  simp only [store.setColumns] at *
  simp [h]

theorem service_GetProduct_ok (db : DB) (id : Int) (p : Product)
    (h : (service.GetProduct db id).1 = Except.ok p) :
    0 < id ∧ db.rows.find? (fun r => r.ID == id) = some p := by
  unfold service.GetProduct at h
  split at h
  · cases h
  · rename_i hid
    refine ⟨by omega, ?_⟩
    split at h
    · cases h
    · rename_i q db1 heq
      simp only [Except.ok.injEq] at h
      subst h
      exact (store_GetProduct_split db id _ db1 heq).2.2 q rfl

theorem service_GetProduct_of_find (db : DB) (id : Int) (p : Product) (hid : 0 < id)
    (h : db.rows.find? (fun r => r.ID == id) = some p) :
    (service.GetProduct db id).1 = Except.ok p := by
  unfold service.GetProduct
  rw [if_neg (by omega), store_GetProduct_of_find db id p h]

theorem store_UpdateProduct_of_check (db : DB) (q : Product) (h : store.checkRow q = true) :
    store.UpdateProduct db q =
      (Except.ok ((db.rows.filter (fun r => r.ID == q.ID)).length == 1),
        { rows := db.rows.map (fun r => if r.ID == q.ID then store.setColumns q r else r),
          calls := db.calls ++ [StoreCall.update q] }) := by
  simp [store.UpdateProduct, h]

theorem service_IncreaseStock_of_find (db : DB) (id a : Int) (p : Product) (hid : 0 < id)
    (ha : 0 < a) (h : db.rows.find? (fun r => r.ID == id) = some p) :
    service.IncreaseStock db id a =
      if 0 < a ∧ wrapInt (MaxInt - a) < p.StockQuantity then
        (Except.error Err.ErrStockOverflow, { db with calls := db.calls ++ [StoreCall.get id] })
      else
        match store.UpdateProduct { db with calls := db.calls ++ [StoreCall.get id] }
            { p with StockQuantity := wrapInt (p.StockQuantity + a) } with
        | (Except.error err, db2) => (Except.error err, db2)
        | (Except.ok _, db2) =>
          (Except.ok { p with StockQuantity := wrapInt (p.StockQuantity + a) }, db2) := by
  unfold service.IncreaseStock
  rw [if_neg (by omega), if_neg (by omega), store_GetProduct_of_find db id p h]

theorem checkRow_iff (q : Product) :
    store.checkRow q = true ↔
      sqliteTrim q.Name ≠ "" ∧ 0 ≤ q.StockQuantity ∧ 0 ≤ q.LowStockThreshold := by
  simp [store.checkRow, and_assoc]

theorem find_after_update (db : DB) (id : Int) (p q : Product) (hq : q.ID = id)
    (h : db.rows.find? (fun r => r.ID == id) = some p) :
    (db.rows.map (fun r => if r.ID == q.ID then store.setColumns q r else r)).find?
      (fun r => r.ID == id) = some q := by
  rw [find_update, h]
  have hp := (find_mem_id db.rows id p h).2
  have hpq : p.ID = q.ID := by rw [hp, hq]
  simp [hpq, setColumns_self q p hpq]

theorem service_DecreaseStock_of_find (db : DB) (id a : Int) (p : Product) (hid : 0 < id)
    (ha : 0 < a) (h : db.rows.find? (fun r => r.ID == id) = some p) :
    service.DecreaseStock db id a =
      if p.StockQuantity < a then
        (Except.error Err.ErrInsufficientStock,
          { db with calls := db.calls ++ [StoreCall.get id] })
      else
        match store.UpdateProduct { db with calls := db.calls ++ [StoreCall.get id] }
            { p with StockQuantity := wrapInt (p.StockQuantity - a) } with
        | (Except.error err, db2) => (Except.error err, db2)
        | (Except.ok _, db2) =>
          (Except.ok { p with StockQuantity := wrapInt (p.StockQuantity - a) }, db2) := by
  unfold service.DecreaseStock
  rw [if_neg (by omega), if_neg (by omega), store_GetProduct_of_find db id p h]

theorem IncreaseStock_success (db : DB) (id a : Int) (p : Product) (hid : 0 < id) (ha : 0 < a)
    (hfind : db.rows.find? (fun r => r.ID == id) = some p) (hrow : store.checkRow p = true)
    (hfit : p.StockQuantity + a ≤ MaxInt) :
    service.IncreaseStock db id a =
      (Except.ok { p with StockQuantity := p.StockQuantity + a },
        { rows := db.rows.map (fun r =>
            if r.ID == p.ID then
              store.setColumns { p with StockQuantity := p.StockQuantity + a } r
            else r),
          calls := db.calls ++ [StoreCall.get id] ++
            [StoreCall.update { p with StockQuantity := p.StockQuantity + a }] }) := by
  obtain ⟨hname, hs, ht⟩ := (checkRow_iff p).mp hrow
  have hM : MaxInt = 9223372036854775807 := rfl
  have hw1 : wrapInt (MaxInt - a) = MaxInt - a := wrapInt_of_range _ (by omega) (by omega)
  have hw2 : wrapInt (p.StockQuantity + a) = p.StockQuantity + a :=
    wrapInt_of_range _ (by omega) (by omega)
  have hck : store.checkRow { p with StockQuantity := p.StockQuantity + a } = true :=
    (checkRow_iff _).mpr ⟨hname, by show 0 ≤ p.StockQuantity + a; omega, ht⟩
  rw [service_IncreaseStock_of_find db id a p hid ha hfind, hw1, if_neg (by omega), hw2,
    store_UpdateProduct_of_check _ _ hck]

theorem DecreaseStock_success (db : DB) (id a : Int) (p : Product) (hid : 0 < id) (ha : 0 < a)
    (hfind : db.rows.find? (fun r => r.ID == id) = some p) (hrow : store.checkRow p = true)
    (hle : a ≤ p.StockQuantity) (hmax : p.StockQuantity ≤ MaxInt) :
    service.DecreaseStock db id a =
      (Except.ok { p with StockQuantity := p.StockQuantity - a },
        { rows := db.rows.map (fun r =>
            if r.ID == p.ID then
              store.setColumns { p with StockQuantity := p.StockQuantity - a } r
            else r),
          calls := db.calls ++ [StoreCall.get id] ++
            [StoreCall.update { p with StockQuantity := p.StockQuantity - a }] }) := by
  obtain ⟨hname, hs, ht⟩ := (checkRow_iff p).mp hrow
  have hM : MaxInt = 9223372036854775807 := rfl
  have hw2 : wrapInt (p.StockQuantity - a) = p.StockQuantity - a :=
    wrapInt_of_range _ (by omega) (by omega)
  have hck : store.checkRow { p with StockQuantity := p.StockQuantity - a } = true :=
    (checkRow_iff _).mpr ⟨hname, by show 0 ≤ p.StockQuantity - a; omega, ht⟩
  rw [service_DecreaseStock_of_find db id a p hid ha hfind, if_neg (by omega), hw2,
    store_UpdateProduct_of_check _ _ hck]

theorem DecreaseStock_insufficient (db : DB) (id a : Int) (p : Product) (hid : 0 < id)
    (ha : 0 < a) (hfind : db.rows.find? (fun r => r.ID == id) = some p)
    (hlt : p.StockQuantity < a) :
    service.DecreaseStock db id a =
      (Except.error Err.ErrInsufficientStock,
        { db with calls := db.calls ++ [StoreCall.get id] }) := by
  rw [service_DecreaseStock_of_find db id a p hid ha hfind, if_pos hlt]

theorem find_map_of_id (rows : List Product) (f : Product → Product)
    (hf : ∀ r, (f r).ID = r.ID) (j : Int) :
    (rows.map f).find? (fun r => r.ID == j) = (rows.find? (fun r => r.ID == j)).map f := by
  induction rows with
  | nil => rfl
  | cons a t ih =>
    simp only [List.map_cons, List.find?_cons, hf a]
    split
    · rfl
    · exact ih

theorem service_GetProduct_congr (db1 db2 : DB) (j : Int)
    (h : db1.rows.find? (fun r => r.ID == j) = db2.rows.find? (fun r => r.ID == j)) :
    (service.GetProduct db1 j).1 = (service.GetProduct db2 j).1 := by
  unfold service.GetProduct store.GetProduct
  by_cases hj : j ≤ 0
  · rw [if_pos hj, if_pos hj]
  · rw [if_neg hj, if_neg hj]
    dsimp only
    rw [h]
    cases db2.rows.find? (fun r => r.ID == j) <;> rfl

theorem foldl_lowStep (l acc : List Product) :
    l.foldl service.lowStep acc = acc ++ l.filter isLowStock := by
  induction l generalizing acc with
  | nil => simp
  | cons a t ih =>
    rw [List.foldl_cons, ih]
    by_cases h : 0 < a.LowStockThreshold ∧ a.StockQuantity < a.LowStockThreshold
    · have hl : isLowStock a = true := by simp [isLowStock, h]
      simp [service.lowStep, h, List.filter_cons, hl]
    · have hl : isLowStock a = false := by simp only [isLowStock, decide_eq_false_iff_not]; exact h
      simp [service.lowStep, h, List.filter_cons, hl]

theorem validate_empty_name (c : Product) (h : TrimSpace c.Name = "") :
    service.validateCommonProductFields c = some Err.ErrEmptyName := by
  simp [service.validateCommonProductFields, h]

theorem validate_negative_stock (c : Product) (hn : TrimSpace c.Name ≠ "")
    (hs : c.StockQuantity < 0) :
    service.validateCommonProductFields c = some Err.ErrNegativeStock := by
  simp [service.validateCommonProductFields, hn, hs]

theorem validate_some_of_negative_stock (c : Product) (hs : c.StockQuantity < 0) :
    ∃ e, service.validateCommonProductFields c = some e := by
  by_cases hn : TrimSpace c.Name = ""
  · exact ⟨_, validate_empty_name c hn⟩
  · exact ⟨_, validate_negative_stock c hn hs⟩

theorem service_CreateProduct_of_invalid (db : DB) (rnd : Nat → Int) (c : Product) (e : Err)
    (h : service.validateCommonProductFields c = some e) :
    service.CreateProduct db rnd (some c) = (Except.error e, db) := by
  simp [service.CreateProduct, service.validateProductForCreate, h]

theorem service_UpdateProduct_of_invalid (db : DB) (c : Product) (e : Err) (hid : 0 < c.ID)
    (h : service.validateCommonProductFields c = some e) :
    service.UpdateProduct db (some c) = (Except.error e, db) := by
  unfold service.UpdateProduct
  simp only [h]
  rw [if_neg (by omega)]

theorem service_UpdateProduct_of_bad_id (db : DB) (c : Product) (hid : c.ID ≤ 0) :
    service.UpdateProduct db (some c) = (Except.error Err.ErrInvalidID, db) := by
  unfold service.UpdateProduct
  simp only
  rw [if_pos hid]

theorem service_CreateProduct_of_valid (db : DB) (rnd : Nat → Int) (c : Product)
    (h : service.validateCommonProductFields c = none) :
    service.CreateProduct db rnd (some c) = store.CreateProduct db rnd c := by
  simp [service.CreateProduct, service.validateProductForCreate, h]

theorem validate_of_valid (c : Product) (h1 : TrimSpace c.Name ≠ "") (h2 : 0 ≤ c.StockQuantity)
    (h3 : 0 ≤ c.LowStockThreshold) : service.validateCommonProductFields c = none := by
  have h2n : ¬ c.StockQuantity < 0 := by omega
  have h3n : ¬ c.LowStockThreshold < 0 := by omega
  simp [service.validateCommonProductFields, h1, h2n, h3n]

/-- A valid candidate is accepted whenever the rowids in use stay below the
largest `int64`: `CreateProduct` returns an id. -/
theorem service_CreateProduct_accepts (db : DB) (rnd : Nat → Int) (c : Product) (m : Int)
    (h1 : TrimSpace c.Name ≠ "") (h2 : 0 ≤ c.StockQuantity) (h3 : 0 ≤ c.LowStockThreshold)
    (hm : ∀ r ∈ db.rows, r.ID ≤ m) (hlt : m < MaxInt64) :
    ∃ id, (service.CreateProduct db rnd (some c)).1 = Except.ok id := by
  obtain ⟨id, hid⟩ := nextRowid_succ db.rows rnd m hm hlt
  refine ⟨id, ?_⟩
  rw [service_CreateProduct_of_valid db rnd c (validate_of_valid c h1 h2 h3)]
  unfold store.CreateProduct
  simp only [hid]
  rw [if_pos (checkRow_of_valid c h1 h2 h3)]

/-! ## The claims -/

/-- C1. Starting from the empty store, after any finite sequence of engine
operations with arbitrary arguments (each one succeeding or failing), every
product in the store has `id > 0`, a name that is non-empty after
`TrimSpace`, `stockQuantity ≥ 0` and `lowStockThreshold ≥ 0`. -/
theorem C1_persisted_products_satisfy_invariants (ops : List Op) :
    ∀ p ∈ (run emptyDB ops).rows,
      0 < p.ID ∧ TrimSpace p.Name ≠ "" ∧ 0 ≤ p.StockQuantity ∧ 0 ≤ p.LowStockThreshold :=
  run_inv ops emptyDB (fun p hp => by cases hp)

/-- Witness of C1: after a run that mixes accepted and refused operations the
product created first is stored with id 1 and stock 8, and it satisfies the
invariants. -/
theorem C1_witness_mixed_run :
    ({ stockProduct with ID := 1, StockQuantity := 8 } : Product) ∈
        (run emptyDB [Op.create zeroDraws (some stockProduct), Op.increase 1 3, Op.decrease 1 10,
          Op.create zeroDraws (some badProduct), Op.update (some blankProduct), Op.delete 5,
          Op.create zeroDraws none]).rows ∧
      (0 : Int) < 1 ∧ TrimSpace "StockProduct" ≠ "" ∧ (0 : Int) ≤ 8 ∧ (0 : Int) ≤ 2 :=
  ⟨by decide,
    C1_persisted_products_satisfy_invariants
      [Op.create zeroDraws (some stockProduct), Op.increase 1 3, Op.decrease 1 10,
        Op.create zeroDraws (some badProduct), Op.update (some blankProduct), Op.delete 5,
        Op.create zeroDraws none]
      { stockProduct with ID := 1, StockQuantity := 8 } (by decide)⟩

/-- C2. For an existing product `p` (the one `GetProduct` returns for `id`)
whose row satisfies the table constraints, in particular stock `s ≥ 0`, and
every amount `0 < a ≤ MaxInt`: `IncreaseStock id a` returns `ErrStockOverflow`
exactly when `s + a > MaxInt` as mathematical integers, and then it writes
nothing (the rows are unchanged and the only store call is the read);
otherwise it succeeds and both the returned product and the stored product are
`p` with stock exactly `s + a`. -/
theorem C2_IncreaseStock_overflow_guard (db : DB) (id a : Int) (p : Product)
    (hget : (service.GetProduct db id).1 = Except.ok p)
    (hrow : store.checkRow p = true) (ha : 0 < a) (hamax : a ≤ MaxInt) :
    (MaxInt < p.StockQuantity + a ↔
        (service.IncreaseStock db id a).1 = Except.error Err.ErrStockOverflow) ∧
    (MaxInt < p.StockQuantity + a →
        (service.IncreaseStock db id a).2.rows = db.rows ∧
        (service.IncreaseStock db id a).2.calls = db.calls ++ [StoreCall.get id]) ∧
    (p.StockQuantity + a ≤ MaxInt →
        (service.IncreaseStock db id a).1 =
            Except.ok { p with StockQuantity := p.StockQuantity + a } ∧
        (service.GetProduct (service.IncreaseStock db id a).2 id).1 =
            Except.ok { p with StockQuantity := p.StockQuantity + a }) := by
  obtain ⟨hid, hfind⟩ := service_GetProduct_ok db id p hget
  obtain ⟨hname, hs, ht⟩ := (checkRow_iff p).mp hrow
  have hpid := (find_mem_id db.rows id p hfind).2
  have hM : MaxInt = 9223372036854775807 := rfl
  have hw1 : wrapInt (MaxInt - a) = MaxInt - a := wrapInt_of_range _ (by omega) (by omega)
  rw [service_IncreaseStock_of_find db id a p hid ha hfind, hw1]
  by_cases hov : MaxInt < p.StockQuantity + a
  · rw [if_pos ⟨ha, by omega⟩]
    exact ⟨⟨fun _ => rfl, fun _ => hov⟩, fun _ => ⟨rfl, rfl⟩, fun h => absurd hov (by omega)⟩
  · have hw2 : wrapInt (p.StockQuantity + a) = p.StockQuantity + a :=
      wrapInt_of_range _ (by omega) (by omega)
    have hck : store.checkRow { p with StockQuantity := p.StockQuantity + a } = true :=
      (checkRow_iff _).mpr ⟨hname, by show 0 ≤ p.StockQuantity + a; omega, ht⟩
    rw [if_neg (by omega), hw2, store_UpdateProduct_of_check _ _ hck]
    refine ⟨⟨fun h => absurd h hov, fun h => by cases h⟩, fun h => absurd h hov, fun _ => ⟨rfl, ?_⟩⟩
    apply service_GetProduct_of_find _ _ _ hid
    exact find_after_update _ id p _ hpid hfind

/-- C3. For an existing product `p` (the one `GetProduct` returns for `id`)
whose row satisfies the table constraints and whose stock `s` is a Go `int`:
for every amount `a > s`, `DecreaseStock id a` fails with
`ErrInsufficientStock`, the rows are unchanged and the stored product is still
`p`; for `0 < a ≤ s` it succeeds and both the returned and the stored product
are `p` with stock `s - a`. -/
theorem C3_DecreaseStock_insufficient_or_exact (db : DB) (id a : Int) (p : Product)
    (hget : (service.GetProduct db id).1 = Except.ok p)
    (hrow : store.checkRow p = true) (hmax : p.StockQuantity ≤ MaxInt) :
    (p.StockQuantity < a →
        (service.DecreaseStock db id a).1 = Except.error Err.ErrInsufficientStock ∧
        (service.DecreaseStock db id a).2.rows = db.rows ∧
        (service.GetProduct (service.DecreaseStock db id a).2 id).1 = Except.ok p) ∧
    (0 < a → a ≤ p.StockQuantity →
        (service.DecreaseStock db id a).1 =
            Except.ok { p with StockQuantity := p.StockQuantity - a } ∧
        (service.GetProduct (service.DecreaseStock db id a).2 id).1 =
            Except.ok { p with StockQuantity := p.StockQuantity - a }) := by
  obtain ⟨hid, hfind⟩ := service_GetProduct_ok db id p hget
  obtain ⟨-, hs, -⟩ := (checkRow_iff p).mp hrow
  have hpid := (find_mem_id db.rows id p hfind).2
  constructor
  · intro hlt
    rw [DecreaseStock_insufficient db id a p hid (by omega) hfind hlt]
    exact ⟨rfl, rfl, service_GetProduct_of_find _ id p hid hfind⟩
  · intro ha hle
    rw [DecreaseStock_success db id a p hid ha hfind hrow hle hmax]
    refine ⟨rfl, ?_⟩
    apply service_GetProduct_of_find _ _ _ hid
    exact find_after_update db id p { p with StockQuantity := p.StockQuantity - a } hpid hfind

/-- C4, amended. For every store state satisfying the product invariants,
every existing product `p` (the one `GetProduct` returns for `id`) and every
amount `a > 0` that `IncreaseStock` accepts, that is `s + a ≤ MaxInt`:
`IncreaseStock id a` succeeds, the `DecreaseStock id a` that follows succeeds
and returns `p` itself, and afterwards `GetProduct` answers for every id,
`id` included, what it answered before the pair. -/
theorem C4_increase_then_decrease_restores (db : DB) (id a : Int) (p : Product)
    (hinv : Invariant db) (hget : (service.GetProduct db id).1 = Except.ok p)
    (ha : 0 < a) (hfit : p.StockQuantity + a ≤ MaxInt) :
    (service.IncreaseStock db id a).1 =
        Except.ok { p with StockQuantity := p.StockQuantity + a } ∧
    (service.DecreaseStock (service.IncreaseStock db id a).2 id a).1 = Except.ok p ∧
    ∀ j, (service.GetProduct
            (service.DecreaseStock (service.IncreaseStock db id a).2 id a).2 j).1 =
          (service.GetProduct db j).1 := by
  obtain ⟨hid, hfind⟩ := service_GetProduct_ok db id p hget
  obtain ⟨hpmem, hpid⟩ := find_mem_id db.rows id p hfind
  obtain ⟨-, hname, hs, ht⟩ := hinv p hpmem
  have hM : MaxInt = 9223372036854775807 := rfl
  have hrow : store.checkRow p = true := checkRow_of_valid p hname hs ht
  have hrow1 : store.checkRow { p with StockQuantity := p.StockQuantity + a } = true :=
    checkRow_of_valid _ hname (by show 0 ≤ p.StockQuantity + a; omega) ht
  rw [IncreaseStock_success db id a p hid ha hfind hrow hfit]
  have hfind1 := find_after_update db id p { p with StockQuantity := p.StockQuantity + a }
    hpid hfind
  rw [DecreaseStock_success _ id a { p with StockQuantity := p.StockQuantity + a } hid ha
    hfind1 hrow1 (by show a ≤ p.StockQuantity + a; omega) hfit]
  have hback : ({ p with StockQuantity := p.StockQuantity + a - a } : Product) = p := by
    cases p
    simp
  refine ⟨rfl, ?_, ?_⟩
  · show Except.ok ({ p with StockQuantity := p.StockQuantity + a - a } : Product) = Except.ok p
    rw [hback]
  · intro j
    apply service_GetProduct_congr
    show List.find? (fun r : Product => r.ID == j) (List.map _ (List.map _ db.rows)) = _
    rw [List.map_map, find_map_of_id _ _ _ j]
    · cases hj : db.rows.find? (fun r => r.ID == j) with
      | none => rfl
      | some r =>
        obtain ⟨-, hrj⟩ := find_mem_id db.rows j r hj
        simp only [Option.map_some', Function.comp_apply, Option.some.injEq]
        by_cases hjp : r.ID = p.ID
        · have hji : j = id := by rw [← hrj, hjp, hpid]
          subst hji
          have hrp : r = p := by
            rw [hfind] at hj
            exact (Option.some.inj hj).symm
          subst hrp
          simp [store.setColumns]
        · simp [hjp]
    · intro r
      by_cases hr : r.ID = p.ID <;> simp [hr, store.setColumns]

/-- Witness of C2 on the case of `TestIncreaseStock`: stock 5 increased by 3
gives 8, returned and stored. -/
theorem C2_witness_five_plus_three :
    ((service.GetProduct stockDB 1).1 = Except.ok { stockProduct with ID := 1 } ∧
      store.checkRow { stockProduct with ID := 1 } = true ∧ (0 : Int) < 3 ∧ (3 : Int) ≤ MaxInt) ∧
    (service.IncreaseStock stockDB 1 3).1 =
      Except.ok { stockProduct with ID := 1, StockQuantity := 8 } ∧
    (service.GetProduct (service.IncreaseStock stockDB 1 3).2 1).1 =
      Except.ok { stockProduct with ID := 1, StockQuantity := 8 } :=
  ⟨⟨by decide, by decide, by decide, by decide⟩,
    (C2_IncreaseStock_overflow_guard stockDB 1 3 { stockProduct with ID := 1 }
      (by decide) (by decide) (by decide) (by decide)).2.2 (by decide)⟩

/-- Witness of C3 on the case of `TestDecreaseStock`: stock 5 decreased by 3
gives 2, returned and stored; a decrease by 6 is refused and the stock stays
5. -/
theorem C3_witness_five_minus_three :
    ((service.GetProduct stockDB 1).1 = Except.ok { stockProduct with ID := 1 } ∧
      store.checkRow { stockProduct with ID := 1 } = true ∧ (5 : Int) ≤ MaxInt) ∧
    ((service.DecreaseStock stockDB 1 3).1 =
        Except.ok { stockProduct with ID := 1, StockQuantity := 2 } ∧
      (service.GetProduct (service.DecreaseStock stockDB 1 3).2 1).1 =
        Except.ok { stockProduct with ID := 1, StockQuantity := 2 }) ∧
    ((service.DecreaseStock stockDB 1 6).1 = Except.error Err.ErrInsufficientStock ∧
      (service.DecreaseStock stockDB 1 6).2.rows = stockDB.rows ∧
      (service.GetProduct (service.DecreaseStock stockDB 1 6).2 1).1 =
        Except.ok { stockProduct with ID := 1 }) :=
  ⟨⟨by decide, by decide, by decide⟩,
    (C3_DecreaseStock_insufficient_or_exact stockDB 1 3 { stockProduct with ID := 1 }
      (by decide) (by decide) (by decide)).2 (by decide) (by decide),
    (C3_DecreaseStock_insufficient_or_exact stockDB 1 6 { stockProduct with ID := 1 }
      (by decide) (by decide) (by decide)).1 (by decide)⟩

/-- Counterexample to C4 as stated: the store holding one product with stock
`MaxInt` satisfies the invariants; `IncreaseStock 1 1` is refused with
`ErrStockOverflow`, the `DecreaseStock 1 1` that follows succeeds, and the
stored stock is then `MaxInt - 1`, not the original `MaxInt`. -/
theorem C4_counterexample_overflow_then_decrease :
    Invariant fullDB ∧
    (service.GetProduct fullDB 1).1 = Except.ok { fullProduct with ID := 1 } ∧
    (service.IncreaseStock fullDB 1 1).1 = Except.error Err.ErrStockOverflow ∧
    (service.GetProduct
        (service.DecreaseStock (service.IncreaseStock fullDB 1 1).2 1 1).2 1).1 =
      Except.ok { fullProduct with ID := 1, StockQuantity := MaxInt - 1 } ∧
    (service.GetProduct
        (service.DecreaseStock (service.IncreaseStock fullDB 1 1).2 1 1).2 1).1 ≠
      (service.GetProduct fullDB 1).1 := by
  decide

/-- Witness of C4, amended: stock 5, increased and then decreased by 3, is 5
again. -/
theorem C4_witness_five_plus_minus_three :
    (Invariant stockDB ∧
      (service.GetProduct stockDB 1).1 = Except.ok { stockProduct with ID := 1 } ∧
      (0 : Int) < 3 ∧ (5 : Int) + 3 ≤ MaxInt) ∧
    (service.DecreaseStock (service.IncreaseStock stockDB 1 3).2 1 3).1 =
      Except.ok { stockProduct with ID := 1 } ∧
    (service.GetProduct
        (service.DecreaseStock (service.IncreaseStock stockDB 1 3).2 1 3).2 1).1 =
      (service.GetProduct stockDB 1).1 :=
  ⟨⟨by decide, by decide, by decide, by decide⟩,
    (C4_increase_then_decrease_restores stockDB 1 3 { stockProduct with ID := 1 }
      (by decide) (by decide) (by decide) (by decide)).2.1,
    (C4_increase_then_decrease_restores stockDB 1 3 { stockProduct with ID := 1 }
      (by decide) (by decide) (by decide) (by decide)).2.2 1⟩

/-- C5. Whenever `ListProducts` succeeds with the list `all`,
`ListLowStockProducts` succeeds and returns exactly the products of `all`
with `lowStockThreshold > 0` and `stockQuantity < lowStockThreshold`, as a
sub-sequence of `all` (same relative order); a product of `all` with
threshold 0 is never in the result. -/
theorem C5_ListLowStockProducts_is_filter (db : DB) (all : List Product)
    (hlist : (service.ListProducts db).1 = Except.ok all) :
    (service.ListLowStockProducts db).1 =
        Except.ok (all.filter (fun p =>
          decide (0 < p.LowStockThreshold ∧ p.StockQuantity < p.LowStockThreshold))) ∧
    List.Sublist (all.filter (fun p =>
          decide (0 < p.LowStockThreshold ∧ p.StockQuantity < p.LowStockThreshold))) all ∧
    (∀ low, (service.ListLowStockProducts db).1 = Except.ok low →
      (∀ p, p ∈ low ↔
        p ∈ all ∧ 0 < p.LowStockThreshold ∧ p.StockQuantity < p.LowStockThreshold) ∧
      (∀ p ∈ all, p.LowStockThreshold = 0 → p ∉ low)) := by
  have hall : all = db.rows := by
    simp only [service.ListProducts, store.ListProducts, Except.ok.injEq] at hlist
    exact hlist.symm
  subst hall
  have hlow : (service.ListLowStockProducts db).1 = Except.ok (db.rows.filter isLowStock) := by
    simp [service.ListLowStockProducts, store.ListProducts, foldl_lowStep]
  refine ⟨hlow, List.filter_sublist _, ?_⟩
  intro low hl
  rw [hlow] at hl
  simp only [Except.ok.injEq] at hl
  subst hl
  constructor
  · intro p
    simp [isLowStock, List.mem_filter]
  · intro p _ hz hmem
    have := (List.mem_filter.mp hmem).2
    simp only [isLowStock, decide_eq_true_eq] at this
    omega

/-- Witness of C5 on the case of `TestListLowStockProducts`: with P1 (stock 1,
threshold 2) and P2 (stock 3, threshold 2) stored, the result is exactly P1. -/
theorem C5_witness_P1_only :
    (service.ListProducts lowDB).1 =
        Except.ok [{ lowP1 with ID := 1 }, { lowP2 with ID := 2 }] ∧
    (service.ListLowStockProducts lowDB).1 = Except.ok [{ lowP1 with ID := 1 }] :=
  ⟨by decide,
    (C5_ListLowStockProducts_is_filter lowDB [{ lowP1 with ID := 1 }, { lowP2 with ID := 2 }]
      (by decide)).1.trans (by decide)⟩

/-- C6. In a store whose products all have `id > 0`, whatever SQLite draws
at random during the insert: if `CreateProduct` of a candidate returns `id`
(which it does only for a non-nil candidate with a name non-empty after
trimming, stock ≥ 0 and threshold ≥ 0), then `id > 0` and the `GetProduct id`
that follows succeeds and returns the candidate with its id set to `id`:
name, description, stock and threshold are the candidate's. -/
theorem C6_create_then_get_roundtrip (db : DB) (rnd : Nat → Int) (c : Product) (id : Int)
    (hstore : ∀ r ∈ db.rows, 0 < r.ID)
    (hcreate : (service.CreateProduct db rnd (some c)).1 = Except.ok id) :
    0 < id ∧
    (TrimSpace c.Name ≠ "" ∧ 0 ≤ c.StockQuantity ∧ 0 ≤ c.LowStockThreshold) ∧
    (service.GetProduct (service.CreateProduct db rnd (some c)).2 id).1 =
      Except.ok { ID := id, Name := c.Name, Description := c.Description,
                  StockQuantity := c.StockQuantity,
                  LowStockThreshold := c.LowStockThreshold } := by
  cases hv : service.validateCommonProductFields c with
  | some e =>
    rw [service_CreateProduct_of_invalid db rnd c e hv] at hcreate
    cases hcreate
  | none =>
    rw [service_CreateProduct_of_valid db rnd c hv] at hcreate ⊢
    unfold store.CreateProduct at hcreate ⊢
    cases hn : store.nextRowid db.rows rnd with
    | none =>
      rw [hn] at hcreate
      cases hcreate
    | some id1 =>
      rw [hn] at hcreate
      simp only at hcreate ⊢
      by_cases hck : store.checkRow c = true
      · rw [if_pos hck] at hcreate ⊢
        simp only [Except.ok.injEq] at hcreate
        subst hcreate
        have hpos := nextRowid_pos db.rows rnd id1 hstore hn
        refine ⟨hpos, validate_none c hv, ?_⟩
        apply service_GetProduct_of_find _ _ _ hpos
        exact find_insertRow db.rows { c with ID := id1 } (nextRowid_unused db.rows rnd id1 hn)
      · rw [if_neg hck] at hcreate
        cases hcreate

/-- Witness of C6 on two stores that already hold products.  In `stockDB`
(one row, id 1) the candidate P2 gets id 2.  In `toppedDB` (rows 1 and
`MaxInt64`) the rowid is drawn at random: the first candidate, 1, is in use,
the second, 42, is free, so P2 gets id 42.  Both are read back unchanged. -/
theorem C6_witness_second_product :
    ((∀ r ∈ stockDB.rows, 0 < r.ID) ∧
      (service.CreateProduct stockDB zeroDraws (some lowP2)).1 = Except.ok 2 ∧
      (∀ r ∈ toppedDB.rows, 0 < r.ID) ∧
      (service.CreateProduct toppedDB laterDraws (some lowP2)).1 = Except.ok 42) ∧
    (service.GetProduct (service.CreateProduct stockDB zeroDraws (some lowP2)).2 2).1 =
      Except.ok { ID := 2, Name := "P2", Description := "", StockQuantity := 3,
                  LowStockThreshold := 2 } ∧
    (service.GetProduct (service.CreateProduct toppedDB laterDraws (some lowP2)).2 42).1 =
      Except.ok { ID := 42, Name := "P2", Description := "", StockQuantity := 3,
                  LowStockThreshold := 2 } :=
  ⟨⟨by decide, by decide, by decide, by decide⟩,
    (C6_create_then_get_roundtrip stockDB zeroDraws lowP2 2 (by decide) (by decide)).2.2,
    (C6_create_then_get_roundtrip toppedDB laterDraws lowP2 42 (by decide) (by decide)).2.2⟩

/-- Counterexample to C7 as stated: a candidate with id 0 and a name of white
space only is refused by `UpdateProduct` with `ErrInvalidID`, not with
`ErrEmptyName`. -/
theorem C7_counterexample_update_checks_id_first :
    TrimSpace blankProduct.Name = "" ∧
    (service.UpdateProduct emptyDB (some blankProduct)).1 = Except.error Err.ErrInvalidID ∧
    (service.UpdateProduct emptyDB (some blankProduct)).1 ≠ Except.error Err.ErrEmptyName := by
  decide

/-- C7, amended. For every candidate whose name is empty after trimming,
whatever its stock and threshold: `CreateProduct` fails with `ErrEmptyName`
whatever the id; `UpdateProduct` fails with `ErrEmptyName` when the id is
positive, and with `ErrInvalidID` when it is not; in every case the store is
unchanged and no store call is made. -/
theorem C7_empty_name_rejected (db : DB) (rnd : Nat → Int) (c : Product)
    (hname : TrimSpace c.Name = "") :
    service.CreateProduct db rnd (some c) = (Except.error Err.ErrEmptyName, db) ∧
    (0 < c.ID → service.UpdateProduct db (some c) = (Except.error Err.ErrEmptyName, db)) ∧
    (c.ID ≤ 0 → service.UpdateProduct db (some c) = (Except.error Err.ErrInvalidID, db)) :=
  ⟨service_CreateProduct_of_invalid db rnd c _ (validate_empty_name c hname),
    fun hid => service_UpdateProduct_of_invalid db c _ hid (validate_empty_name c hname),
    fun hid => service_UpdateProduct_of_bad_id db c hid⟩

/-- Witness of C7, amended, on the white-space name of `blankProduct`. -/
theorem C7_witness_blank_name :
    TrimSpace blankProduct.Name = "" ∧
    service.CreateProduct stockDB zeroDraws (some blankProduct) =
      (Except.error Err.ErrEmptyName, stockDB) ∧
    service.UpdateProduct stockDB (some { blankProduct with ID := 1 }) =
      (Except.error Err.ErrEmptyName, stockDB) :=
  ⟨by decide, (C7_empty_name_rejected stockDB zeroDraws blankProduct (by decide)).1,
    (C7_empty_name_rejected stockDB zeroDraws { blankProduct with ID := 1 }
      (by decide)).2.1 (by decide)⟩

/-- Counterexample to C8 as stated: a candidate with stock -5 and an empty
name is refused by `CreateProduct` and by `UpdateProduct` with
`ErrEmptyName`, not with `ErrNegativeStock`. -/
theorem C8_counterexample_name_checked_first :
    negativeNameless.StockQuantity < 0 ∧
    (service.CreateProduct emptyDB zeroDraws (some negativeNameless)).1 =
      Except.error Err.ErrEmptyName ∧
    (service.CreateProduct emptyDB zeroDraws (some negativeNameless)).1 ≠
      Except.error Err.ErrNegativeStock ∧
    (service.UpdateProduct emptyDB (some negativeNameless)).1 =
      Except.error Err.ErrEmptyName := by
  decide

/-- C8, amended. For every candidate with `stockQuantity < 0`: both
`CreateProduct` and `UpdateProduct` fail and leave the store unchanged, with
no store call; the error is `ErrNegativeStock` when the name is non-empty
after trimming and, for `UpdateProduct`, the id is positive. -/
theorem C8_negative_stock_rejected (db : DB) (rnd : Nat → Int) (c : Product)
    (hs : c.StockQuantity < 0) :
    (∃ e, service.CreateProduct db rnd (some c) = (Except.error e, db)) ∧
    (∃ e, service.UpdateProduct db (some c) = (Except.error e, db)) ∧
    (TrimSpace c.Name ≠ "" →
      service.CreateProduct db rnd (some c) = (Except.error Err.ErrNegativeStock, db)) ∧
    (TrimSpace c.Name ≠ "" → 0 < c.ID →
      service.UpdateProduct db (some c) = (Except.error Err.ErrNegativeStock, db)) := by
  obtain ⟨e, he⟩ := validate_some_of_negative_stock c hs
  refine ⟨⟨e, service_CreateProduct_of_invalid db rnd c e he⟩, ?_, ?_, ?_⟩
  · by_cases hid : 0 < c.ID
    · exact ⟨e, service_UpdateProduct_of_invalid db c e hid he⟩
    · exact ⟨_, service_UpdateProduct_of_bad_id db c (by omega)⟩
  · intro hn
    exact service_CreateProduct_of_invalid db rnd c _ (validate_negative_stock c hn hs)
  · intro hn hid
    exact service_UpdateProduct_of_invalid db c _ hid (validate_negative_stock c hn hs)

/-- Witness of C8, amended, on the rejected candidate of `TestCreateProduct`
(name "Bad Product", stock -5). -/
theorem C8_witness_bad_product :
    badProduct.StockQuantity < 0 ∧
    service.CreateProduct stockDB zeroDraws (some badProduct) =
      (Except.error Err.ErrNegativeStock, stockDB) ∧
    service.UpdateProduct stockDB (some { badProduct with ID := 1 }) =
      (Except.error Err.ErrNegativeStock, stockDB) :=
  ⟨by decide,
    (C8_negative_stock_rejected stockDB zeroDraws badProduct (by decide)).2.2.1 (by decide),
    (C8_negative_stock_rejected stockDB zeroDraws { badProduct with ID := 1 }
      (by decide)).2.2.2 (by decide) (by decide)⟩

/-- C9. For every `id ≤ 0`, each id-taking engine operation, `GetProduct`,
`UpdateProduct` (of any non-nil candidate carrying that id), `DeleteProduct`,
`IncreaseStock` and `DecreaseStock` (with any amount), fails with
`ErrInvalidID` and returns the store state it was given: the rows are
unchanged and the trace of store calls has no new entry. -/
theorem C9_nonpositive_id_rejected (db : DB) (id : Int) (hid : id ≤ 0) :
    service.GetProduct db id = (Except.error Err.ErrInvalidID, db) ∧
    (∀ c : Product, c.ID = id →
      service.UpdateProduct db (some c) = (Except.error Err.ErrInvalidID, db)) ∧
    service.DeleteProduct db id = (Except.error Err.ErrInvalidID, db) ∧
    (∀ amount, service.IncreaseStock db id amount = (Except.error Err.ErrInvalidID, db)) ∧
    (∀ amount, service.DecreaseStock db id amount = (Except.error Err.ErrInvalidID, db)) := by
  refine ⟨?_, ?_, ?_, ?_, ?_⟩
  · unfold service.GetProduct
    rw [if_pos hid]
  · intro c hc
    exact service_UpdateProduct_of_bad_id db c (by omega)
  · unfold service.DeleteProduct
    rw [if_pos hid]
  · intro amount
    unfold service.IncreaseStock
    rw [if_pos hid]
  · intro amount
    unfold service.DecreaseStock
    rw [if_pos hid]

/-- Witness of C9 at id 0 on a store that holds a product. -/
theorem C9_witness_id_zero :
    (0 : Int) ≤ 0 ∧
    service.GetProduct stockDB 0 = (Except.error Err.ErrInvalidID, stockDB) ∧
    service.DeleteProduct stockDB 0 = (Except.error Err.ErrInvalidID, stockDB) ∧
    service.IncreaseStock stockDB 0 3 = (Except.error Err.ErrInvalidID, stockDB) :=
  ⟨by decide, (C9_nonpositive_id_rejected stockDB 0 (by decide)).1,
    (C9_nonpositive_id_rejected stockDB 0 (by decide)).2.2.1,
    (C9_nonpositive_id_rejected stockDB 0 (by decide)).2.2.2.1 3⟩

/-- C10, the code at the failing inputs. On the empty store the engine answers
`ErrNotFound` for id 1, and the handlers of `DELETE /products/1`,
`PUT /products/1`, `POST /products/1/increase` and `POST /products/1/decrease`
answer it with status 400; only the handler of `GET /products/1` answers
404. -/
theorem C10_handlers_answer_NotFound_with_400 :
    (service.DeleteProduct emptyDB 1).1 = Except.error Err.ErrNotFound ∧
    (handlers.DeleteProduct emptyDB (some 1)).1 =
      { code := 400, payload := handlers.Payload.apiErrorOf Err.ErrNotFound } ∧
    (handlers.UpdateProduct emptyDB (some 1) (some stockProduct)).1 =
      { code := 400, payload := handlers.Payload.apiErrorOf Err.ErrNotFound } ∧
    (handlers.IncreaseStock emptyDB (some 1) (some 3)).1 =
      { code := 400, payload := handlers.Payload.apiErrorOf Err.ErrNotFound } ∧
    (handlers.DecreaseStock emptyDB (some 1) (some 3)).1 =
      { code := 400, payload := handlers.Payload.apiErrorOf Err.ErrNotFound } ∧
    (handlers.GetProduct emptyDB (some 1)).1 =
      { code := 404, payload := handlers.Payload.apiError "product not found" } := by
  decide
